import Mathlib

/-!
# Verification of the `si330_fa20` notebooks

A shallow embedding of the two instructional notebooks
(`4_more_pandas.ipynb` and `scraping.ipynb`) and proofs about the
operations they demonstrate: dataframe column renaming, gzip
decoding of a fetched artifact, and a single header-spoofed HTTP GET.

The notebooks consist of calls into pandas, `gzip` and `curl`; those
libraries are not part of the repository, so their semantics are
modelled from the specification's documented contracts (exact-match
rename, gzip round-trip, verbatim header attachment).  Definitions
modelled this way say so in their doc comments.
-/

namespace SI330

/-! ## Dataframe model

Modelled from the spec: a pandas `DataFrame` (the pandas library is not
part of the repository).  The spec's "Extracted table" is a row/column
structure: an ordered list of named columns, a row index, and rows of
cell values.  Cell values are kept as strings (the CSV text). -/

structure DataFrame where
  columns : List String
  index : List String
  data : List (List String)
  deriving DecidableEq, Repr

/-- Modelled from the spec: the replacement a rename mapping performs on a
single column label.  "Column rename accepts a static mapping from exact
current name to desired name; names not matching exactly (including
whitespace differences) are left unchanged." -/
def renameKey (m : List (String × String)) (c : String) : String :=
  match m.lookup c with
  | some v => v
  | none => c

/-- Modelled from the spec: `df.rename(columns=m)` with the default
`inplace=False` — a new dataframe whose column labels are rewritten by
exact-match lookup in `m`; index and cell data are untouched. -/
def renameColumns (df : DataFrame) (m : List (String × String)) : DataFrame :=
  { df with columns := df.columns.map (renameKey m) }

/-- Modelled from the spec: `df.rename(mapper=f, axis='columns')` — a new
dataframe whose column labels are each rewritten by the function `f`. -/
def renameMapper (df : DataFrame) (f : String → String) : DataFrame :=
  { df with columns := df.columns.map f }

/-- Modelled from the spec: direct assignment `df.columns = cols`. -/
def setColumns (df : DataFrame) (cols : List String) : DataFrame :=
  { df with columns := cols }

/-- The `errors` parameter of pandas `rename`: `'ignore'` (the default,
used by every call in the notebook) or `'raise'`. -/
inductive RenameErrors where
  | ignore
  | raise
  deriving DecidableEq, Repr

/-- Modelled from the spec: pandas `DataFrame.rename` including its
`errors` parameter.  With `errors='ignore'` (the notebook's default) the
call always succeeds; with `errors='raise'` a mapping key that matches no
column label raises a `KeyError`. -/
def renamePandas (df : DataFrame) (m : List (String × String))
    (errors : RenameErrors) : Except String DataFrame :=
  match errors with
  | RenameErrors.ignore => Except.ok (renameColumns df m)
  | RenameErrors.raise =>
      if m.all (fun kv => df.columns.contains kv.1) then
        Except.ok (renameColumns df m)
      else
        Except.error "KeyError"

/-! ## Python `str.strip` and `str.lower` on column labels -/

/-- The ASCII whitespace characters removed by Python's `str.strip()`. -/
def isPySpace (c : Char) : Bool :=
  c == ' ' || c == '\t' || c == '\n' || c == '\r' || c == '\x0b' || c == '\x0c'

/-- Leading-whitespace removal on a character list. -/
def ltrimL (l : List Char) : List Char :=
  l.dropWhile isPySpace

/-- Trailing-whitespace removal on a character list. -/
def rtrimL (l : List Char) : List Char :=
  (l.reverse.dropWhile isPySpace).reverse

/-- Modelled from the spec: Python's `str.strip()` (ASCII whitespace),
the mapper passed to `rename(mapper=str.strip, axis='columns')`. -/
def pyStrip (s : String) : String :=
  String.mk (rtrimL (ltrimL s.data))

/-- Modelled from the spec: Python's `str.lower()` on the ASCII column
labels of the admissions table. -/
def pyLower (s : String) : String :=
  String.mk (s.data.map Char.toLower)

/-- `true` iff the string starts or ends with a Python whitespace
character. -/
def hasEdgeWhitespace (s : String) : Bool :=
  (match s.data.head? with
   | some c => isPySpace c
   | none => false) ||
  (match s.data.getLast? with
   | some c => isPySpace c
   | none => false)

/-! ## The concrete notebook session (`4_more_pandas.ipynb`)

Modelled from the spec: the dataset `datasets/Admission_Predict.csv` is
not in the repository.  Its column labels are the ones the notebook's
rename mapping targets, with the trailing space in `"LOR "` that the
notebook demonstrates; `read_csv(..., index_col=0)` consumed the leading
serial-number column as the index.  Two representative rows stand in for
the data. -/

def admissionDF : DataFrame :=
  { columns := ["GRE Score", "TOEFL Score", "University Rating", "SOP",
                "LOR ", "CGPA", "Research", "Chance of Admit"],
    index := ["1", "2"],
    data := [["337", "118", "4", "4.5", "4.5", "9.65", "1", "0.92"],
             ["324", "107", "4", "4", "4.5", "8.87", "1", "0.76"]] }

/-- The rename mapping of notebook cell 6 (`new_df=df.rename(columns=...)`). -/
def cell6Mapping : List (String × String) :=
  [("GRE Score", "GRE Score"), ("TOEFL Score", "TOEFL Score"),
   ("University Rating", "University Rating"),
   ("SOP", "Statement of Purpose"), ("LOR", "Letter of Recommendation"),
   ("CGPA", "CGPA"), ("Research", "Research"),
   ("Chance of Admit", "Chance of Admit")]

/-- The rename mapping of notebook cell 9
(`new_df.rename(columns={'LOR ': 'Letter of Recommendation'})`). -/
def cell9Mapping : List (String × String) :=
  [("LOR ", "Letter of Recommendation")]

/-- The notebook's variable environment: `df` from `read_csv`, and
`new_df` once it has been assigned. -/
structure Session where
  df : DataFrame
  new_df : Option DataFrame
  deriving DecidableEq, Repr

/-- Cell 6: `new_df=df.rename(columns={...})`. -/
def cell6 (s : Session) : Session :=
  { s with new_df := some (renameColumns s.df cell6Mapping) }

/-- Cell 9: `new_df=new_df.rename(columns={'LOR ': 'Letter of Recommendation'})`. -/
def cell9 (s : Session) : Session :=
  { s with new_df := s.new_df.map (fun d => renameColumns d cell9Mapping) }

/-- Cell 12: `new_df=new_df.rename(mapper=str.strip, axis='columns')`. -/
def cell12 (s : Session) : Session :=
  { s with new_df := s.new_df.map (fun d => renameMapper d pyStrip) }

/-- Cell 14: `cols = [x.lower().strip() for x in df.columns]; df.columns=cols`. -/
def cell14 (s : Session) : Session :=
  { s with df := setColumns s.df (s.df.columns.map (fun c => pyStrip (pyLower c))) }

/-- The session state right after `df = pd.read_csv(..., index_col=0)`. -/
def initialSession : Session :=
  { df := admissionDF, new_df := none }

/-! ## Lemmas about `str.strip` -/

theorem dropWhile_self_idem (p : α → Bool) (l : List α) :
    (l.dropWhile p).dropWhile p = l.dropWhile p := by
  cases h : l.dropWhile p with
  | nil => simp
  | cons c t =>
      have hnot := List.head?_dropWhile_not p l
      rw [h] at hnot
      simp only [List.head?_cons] at hnot
      rw [List.dropWhile_cons_of_neg]
      simp [hnot]

theorem rtrimL_idem (l : List Char) : rtrimL (rtrimL l) = rtrimL l := by
  unfold rtrimL
  rw [List.reverse_reverse, dropWhile_self_idem]

/-- A list starting with a non-whitespace character keeps that head (or
becomes empty) under trailing-whitespace removal. -/
theorem rtrimL_cons (c : Char) (t : List Char) :
    rtrimL (c :: t) = [] ∨ ∃ t', rtrimL (c :: t) = c :: t' := by
  unfold rtrimL
  rw [List.reverse_cons, List.dropWhile_append]
  by_cases h : (t.reverse.dropWhile isPySpace).isEmpty
  · simp only [h, if_true]
    by_cases hc : isPySpace c
    · left
      simp [List.dropWhile_cons, hc]
    · right
      exact ⟨[], by simp [List.dropWhile_cons, hc]⟩
  · right
    simp only [h, if_false]
    exact ⟨(t.reverse.dropWhile isPySpace).reverse, by simp⟩

theorem ltrimL_rtrimL_ltrimL (l : List Char) :
    ltrimL (rtrimL (ltrimL l)) = rtrimL (ltrimL l) := by
  cases hx : ltrimL l with
  | nil => simp [rtrimL, ltrimL]
  | cons c t =>
      have hnot := List.head?_dropWhile_not isPySpace l
      unfold ltrimL at hx
      rw [hx] at hnot
      simp only [List.head?_cons] at hnot
      rcases rtrimL_cons c t with h | ⟨t', h⟩
      · simp [h, ltrimL]
      · rw [h]
        unfold ltrimL
        rw [List.dropWhile_cons_of_neg]
        simp [hnot]

theorem pyStrip_idem (s : String) : pyStrip (pyStrip s) = pyStrip s := by
  unfold pyStrip
  have : (String.mk (rtrimL (ltrimL s.data))).data = rtrimL (ltrimL s.data) := rfl
  rw [this, ltrimL_rtrimL_ltrimL, rtrimL_idem]

theorem hasEdgeWhitespace_pyStrip (s : String) :
    hasEdgeWhitespace (pyStrip s) = false := by
  unfold hasEdgeWhitespace pyStrip
  have hdata : (String.mk (rtrimL (ltrimL s.data))).data = rtrimL (ltrimL s.data) := rfl
  rw [hdata]
  apply Bool.or_eq_false_iff.2
  constructor
  · cases hx : ltrimL s.data with
    | nil => simp [rtrimL]
    | cons c t =>
        have hnot := List.head?_dropWhile_not isPySpace s.data
        unfold ltrimL at hx
        rw [hx] at hnot
        simp only [List.head?_cons] at hnot
        rcases rtrimL_cons c t with h | ⟨t', h⟩
        · simp [h]
        · simp [h, hnot]
  · have : (rtrimL (ltrimL s.data)).getLast? =
        ((ltrimL s.data).reverse.dropWhile isPySpace).head? := by
      rw [← List.head?_reverse]
      unfold rtrimL
      rw [List.reverse_reverse]
    rw [this]
    have hnot := List.head?_dropWhile_not isPySpace (ltrimL s.data).reverse
    cases h : ((ltrimL s.data).reverse.dropWhile isPySpace).head? with
    | none => simp
    | some c =>
        rw [h] at hnot
        simp [hnot]

/-! ## Lemmas about exact-match lookup -/

theorem lookup_filter_of_key (c : String) (m : List (String × String))
    (p : String × String → Bool) (hp : ∀ kv : String × String, kv.1 = c → p kv = true) :
    (m.filter p).lookup c = m.lookup c := by
  induction m with
  | nil => simp
  | cons kv rest ih =>
      by_cases hc : (c == kv.1) = true
      · have : p kv = true := hp kv (by
          have h : c = kv.1 := by
            rwa [beq_iff_eq] at hc
          exact h.symm)
        simp [List.filter_cons, this, List.lookup, hc]
      · rw [List.filter_cons]
        by_cases hpkv : p kv = true
        · simp [hpkv, List.lookup, hc, ih]
        · simp only [hpkv, Bool.false_eq_true, if_false]
          rw [ih, List.lookup]
          simp [hc]

/-! ## Claims about column renaming -/

/-- C1: for every dataframe and every column-rename mapping, the rename
operation changes exactly those column names that match a mapping key
character for character and leaves every other column name unchanged; in
particular, on the notebook's admissions table the cell-6 mapping (keyed
on `"LOR"`) leaves the `"LOR "` column untouched. -/
theorem C1_rename_exact_match (df : DataFrame) (m : List (String × String))
    (i : Nat) (c : String) (hc : df.columns[i]? = some c) :
    (renameColumns df m).columns.length = df.columns.length ∧
    (m.lookup c = none → (renameColumns df m).columns[i]? = some c) ∧
    (∀ v, m.lookup c = some v → (renameColumns df m).columns[i]? = some v) ∧
    (renameColumns admissionDF cell6Mapping).columns =
      ["GRE Score", "TOEFL Score", "University Rating", "Statement of Purpose",
       "LOR ", "CGPA", "Research", "Chance of Admit"] := by
  refine ⟨by simp [renameColumns], ?_, ?_, by decide⟩
  · intro hn
    simp [renameColumns, hc, renameKey, hn]
  · intro v hv
    simp [renameColumns, hc, renameKey, hv]

/-- Witness for C1 at the notebook's own input: the `"LOR "` column of the
admissions table (position 4) survives the cell-6 rename unchanged. -/
theorem C1_rename_exact_match_witness :
    (renameColumns admissionDF cell6Mapping).columns[4]? = some "LOR " :=
  (C1_rename_exact_match admissionDF cell6Mapping 4 "LOR " (by decide)).2.1 (by decide)

/-- C6: for a dataframe with a column named `"LOR "` (trailing whitespace)
and a mapping keyed on `"LOR"`, renaming without stripping leaves the
column unchanged, while stripping whitespace from all column names first
and then applying the same mapping renames it. -/
theorem C6_strip_then_rename (df : DataFrame) (m : List (String × String))
    (i : Nat) (v : String) (hc : df.columns[i]? = some "LOR ")
    (hk : m.lookup "LOR" = some v) (hk' : m.lookup "LOR " = none) :
    (renameColumns df m).columns[i]? = some "LOR " ∧
    (renameColumns (renameMapper df pyStrip) m).columns[i]? = some v := by
  constructor
  · simp [renameColumns, hc, renameKey, hk']
  · have hmap : (renameMapper df pyStrip).columns[i]? = some (pyStrip "LOR ") := by
      simp [renameMapper, hc]
    have hs : pyStrip "LOR " = "LOR" := by decide
    simp [renameColumns, renameKey, hmap, hs, hk]

/-- Witness for C6 at the notebook's own input: the cell-6 mapping fails
to rename `"LOR "` on the admissions table, but succeeds after
`rename(mapper=str.strip, axis='columns')`. -/
theorem C6_strip_then_rename_witness :
    (renameColumns admissionDF cell6Mapping).columns[4]? = some "LOR " ∧
    (renameColumns (renameMapper admissionDF pyStrip) cell6Mapping).columns[4]? =
      some "Letter of Recommendation" :=
  C6_strip_then_rename admissionDF cell6Mapping 4 "Letter of Recommendation"
    (by decide) (by decide) (by decide)

/-- C7: renaming never raises with the notebook's (default)
`errors='ignore'` — it always returns a result dataframe — and a mapping
key that matches no column name is a silent no-op: dropping all
non-matching keys from the mapping leaves the result unchanged. -/
theorem C7_rename_never_raises (df : DataFrame) (m : List (String × String)) :
    renamePandas df m RenameErrors.ignore = Except.ok (renameColumns df m) ∧
    renameColumns df m =
      renameColumns df (m.filter (fun kv => decide (kv.1 ∈ df.columns))) := by
  refine ⟨rfl, ?_⟩
  unfold renameColumns
  have : df.columns.map (renameKey m) =
      df.columns.map (renameKey (m.filter (fun kv => decide (kv.1 ∈ df.columns)))) := by
    apply List.map_congr_left
    intro c hcmem
    unfold renameKey
    rw [lookup_filter_of_key]
    intro kv hkv
    simp [hkv, hcmem]
  rw [this]

/-- C8: `rename` returns a new dataframe and leaves the original entirely
unchanged: its index and data are carried over untouched, and after the
whole cell-6/9/12 sequence the session's `df` still holds its original
column names (with `"LOR "` at position 4) and original data. -/
theorem C8_rename_leaves_original (df : DataFrame) (m : List (String × String))
    (s : Session) :
    (renameColumns df m).index = df.index ∧
    (renameColumns df m).data = df.data ∧
    (cell12 (cell9 (cell6 s))).df = s.df ∧
    (cell12 (cell9 (cell6 initialSession))).df.columns = admissionDF.columns ∧
    (cell12 (cell9 (cell6 initialSession))).df.data = admissionDF.data ∧
    admissionDF.columns[4]? = some "LOR " :=
  ⟨rfl, rfl, rfl, rfl, rfl, by decide⟩

/-- C9: renaming with the whitespace-stripping mapper is idempotent, and
after one application no column name has leading or trailing
whitespace. -/
theorem C9_strip_rename_idempotent (df : DataFrame) :
    renameMapper (renameMapper df pyStrip) pyStrip = renameMapper df pyStrip ∧
    ((renameMapper df pyStrip).columns.all
      (fun c => !(hasEdgeWhitespace c))) = true := by
  constructor
  · unfold renameMapper
    simp only [List.map_map]
    have : df.columns.map (pyStrip ∘ pyStrip) = df.columns.map pyStrip :=
      List.map_congr_left (fun a _ => pyStrip_idem a)
    rw [this]
  · rw [List.all_eq_true]
    intro c hcmem
    simp only [renameMapper, List.mem_map] at hcmem
    obtain ⟨a, _, rfl⟩ := hcmem
    simp [hasEdgeWhitespace_pyStrip]

/-- C10: every column-renaming operation shown — rename with a mapping,
rename with a mapper function, and direct assignment of a transformed
list to the columns attribute — preserves the number of columns, the
column order (the i-th new name comes from the i-th old name), the row
index, and every cell value. -/
theorem C10_renames_preserve_shape (df : DataFrame) (m : List (String × String))
    (f : String → String) (i : Nat) :
    ((renameColumns df m).columns.length = df.columns.length ∧
     (renameColumns df m).index = df.index ∧
     (renameColumns df m).data = df.data ∧
     (renameColumns df m).columns[i]? = (df.columns[i]?).map (renameKey m)) ∧
    ((renameMapper df f).columns.length = df.columns.length ∧
     (renameMapper df f).index = df.index ∧
     (renameMapper df f).data = df.data ∧
     (renameMapper df f).columns[i]? = (df.columns[i]?).map f) ∧
    ((setColumns df (df.columns.map f)).columns.length = df.columns.length ∧
     (setColumns df (df.columns.map f)).index = df.index ∧
     (setColumns df (df.columns.map f)).data = df.data ∧
     (setColumns df (df.columns.map f)).columns[i]? = (df.columns[i]?).map f) := by
  refine ⟨⟨by simp [renameColumns], rfl, rfl, by simp [renameColumns]⟩,
          ⟨by simp [renameMapper], rfl, rfl, by simp [renameMapper]⟩,
          ⟨by simp [setColumns], rfl, rfl, by simp [setColumns]⟩⟩

/-! ## The gzip artifact (`scraping.ipynb`)

The notebook opens the saved response body with
`gzip.open("outfile.gz")` and reads the decompressed bytes.  The `gzip`
module is not part of the repository, so the format is modelled from the
spec at the byte level: a gzip member is the 10-byte header, a DEFLATE
stream, and a CRC-32/size trailer.  The model's compressor emits stored
(uncompressed) DEFLATE blocks, and the decoder handles exactly the
streams this grammar describes — enough to state the spec's round-trip
and rejection contracts.  Bytes are `Nat`s, reduced `% 256` where the
format requires it. -/

/-- One round of the bitwise CRC-32 computation (polynomial
`0xEDB88320`). -/
def crc32Round (crc : Nat) : Nat :=
  if crc % 2 = 1 then (crc / 2) ^^^ 0xEDB88320 else crc / 2

/-- Fold one byte into a CRC-32 accumulator: xor it in, then shift eight
times. -/
def crc32Byte (crc b : Nat) : Nat :=
  crc32Round (crc32Round (crc32Round (crc32Round
    (crc32Round (crc32Round (crc32Round (crc32Round (crc ^^^ b % 256))))))))

/-- Modelled from the spec: the CRC-32 checksum a gzip trailer carries
for the uncompressed data. -/
def crc32 (bs : List Nat) : Nat :=
  ((bs.foldl crc32Byte 0xFFFFFFFF) ^^^ 0xFFFFFFFF) % 4294967296

/-- A 16-bit value as two little-endian bytes. -/
def le2 (n : Nat) : List Nat :=
  [n % 256, n / 256 % 256]

/-- A 32-bit value as four little-endian bytes. -/
def le4 (n : Nat) : List Nat :=
  [n % 256, n / 256 % 256, n / 65536 % 256, n / 16777216 % 256]

/-- A stored (BTYPE=00) DEFLATE block: the BFINAL byte, `LEN` and `NLEN`
(ones' complement of `LEN`) as little-endian 16-bit values, then the raw
chunk. -/
def mkStoredBlock (final : Bool) (chunk : List Nat) : List Nat :=
  (if final then 1 else 0) ::
    (le2 chunk.length ++ le2 (65535 - chunk.length) ++ chunk)

/-- A DEFLATE stream of stored blocks holding `b`, chunked at the 65535
byte `LEN` limit. -/
def deflateStored (b : List Nat) : List Nat :=
  if _h : b.length ≤ 65535 then
    mkStoredBlock true b
  else
    mkStoredBlock false (b.take 65535) ++ deflateStored (b.drop 65535)
termination_by b.length
decreasing_by
  simp only [List.length_drop]
  omega

/-- Parse a DEFLATE stream of stored blocks: returns the decompressed
payload and the bytes following the final block. -/
def inflateStored (s : List Nat) : Option (List Nat × List Nat) :=
  match s with
  | bf :: l1 :: l2 :: n1 :: n2 :: rest =>
      let len := l1 + 256 * l2
      if n1 + 256 * n2 = 65535 - len ∧ len ≤ rest.length then
        if bf = 1 then
          some (rest.take len, rest.drop len)
        else if bf = 0 then
          match inflateStored (rest.drop len) with
          | some (p, t) => some (rest.take len ++ p, t)
          | none => none
        else
          none
      else
        none
  | _ => none
termination_by s.length
decreasing_by
  simp only [List.length_cons, List.length_drop]
  omega

/-- The 10-byte gzip header the model's compressor emits: magic
`1f 8b`, method 8 (DEFLATE), no flags, zero mtime, XFL 0, OS 255. -/
def gzipHeader : List Nat :=
  [31, 139, 8, 0, 0, 0, 0, 0, 0, 255]

/-- Modelled from the spec: gzip compression of a byte sequence —
header, stored-block DEFLATE stream, then CRC-32 and size modulo 2^32 as
little-endian 32-bit trailer fields. -/
def gzipCompress (b : List Nat) : List Nat :=
  gzipHeader ++ deflateStored b ++ le4 (crc32 b) ++ le4 (b.length % 4294967296)

/-- The distinct decoding failures of the content decoder. -/
inductive GzipError where
  | badMagic
  | badMethod
  | badFlags
  | corruptBlock
  | truncated
  | trailingData
  | badCrc
  | badLength
  deriving DecidableEq, Repr

/-- Modelled from the spec: the content decoder —
`gzip.open("outfile.gz").read()`.  Given the artifact's bytes it checks
the header, inflates the DEFLATE stream, verifies the CRC-32 and size
trailer, and yields the decompressed byte buffer; any malformed artifact
produces a decoding error instead. -/
def gzipDecode (a : List Nat) : Except GzipError (List Nat) :=
  match a with
  | m1 :: m2 :: cm :: flg :: _mt1 :: _mt2 :: _mt3 :: _mt4 :: _xfl :: _os :: body =>
      if m1 = 31 ∧ m2 = 139 then
        if cm = 8 then
          if flg = 0 then
            match inflateStored body with
            | some (payload, trailer) =>
                match trailer with
                | c1 :: c2 :: c3 :: c4 :: s1 :: s2 :: s3 :: s4 :: rest =>
                    if rest = [] then
                      if c1 + 256 * c2 + 65536 * c3 + 16777216 * c4 = crc32 payload then
                        if s1 + 256 * s2 + 65536 * s3 + 16777216 * s4 =
                            payload.length % 4294967296 then
                          Except.ok payload
                        else
                          Except.error GzipError.badLength
                      else
                        Except.error GzipError.badCrc
                    else
                      Except.error GzipError.trailingData
                | _ => Except.error GzipError.truncated
            | none => Except.error GzipError.corruptBlock
          else
            Except.error GzipError.badFlags
        else
          Except.error GzipError.badMethod
      else
        Except.error GzipError.badMagic
  | _ => Except.error GzipError.badMagic

/-- Modelled from the spec: the downstream HTML processing of the
decompressed buffer (`BeautifulSoup(contents.read(), 'lxml')`), abstracted
as the identity on the buffer it receives — the claims only concern what
reaches it. -/
def parseSoup (contents : List Nat) : List Nat :=
  contents

/-- Modelled from the spec: the whole decode-and-parse notebook cell.
The decoder's result is consumed directly; no failure is caught or
translated. -/
def scrapeCell (a : List Nat) : Except GzipError (List Nat) :=
  (gzipDecode a).map parseSoup

/-! ## Round-trip lemmas for the stored-block DEFLATE stream -/

/-- How `inflateStored` consumes one well-formed stored block. -/
theorem inflateStored_block (bf : Nat) (chunk rem : List Nat)
    (h : chunk.length ≤ 65535) :
    inflateStored (bf :: (le2 chunk.length ++ (le2 (65535 - chunk.length) ++ (chunk ++ rem)))) =
      (if bf = 1 then some (chunk, rem)
       else if bf = 0 then
         match inflateStored rem with
         | some (p, t) => some (chunk ++ p, t)
         | none => none
       else none) := by
  have h1 : chunk.length % 256 + 256 * (chunk.length / 256 % 256) = chunk.length := by
    omega
  have h2 : (65535 - chunk.length) % 256 + 256 * ((65535 - chunk.length) / 256 % 256) =
      65535 - chunk.length := by
    omega
  have ht : (chunk ++ rem).take (chunk.length % 256 + 256 * (chunk.length / 256 % 256)) =
      chunk := by
    rw [h1]
    exact List.take_left chunk rem
  have hd : (chunk ++ rem).drop (chunk.length % 256 + 256 * (chunk.length / 256 % 256)) =
      rem := by
    rw [h1]
    exact List.drop_left chunk rem
  unfold le2
  simp only [List.cons_append, List.nil_append]
  rw [inflateStored]
  rw [if_pos]
  · rw [ht, hd]
  · constructor
    · omega
    · rw [h1]
      simp only [List.length_append]
      omega

/-- Inflating what `deflateStored` produced recovers the payload and the
following bytes. -/
theorem inflateStored_deflateStored (b t : List Nat) :
    inflateStored (deflateStored b ++ t) = some (b, t) := by
  suffices h : ∀ n (b t : List Nat), b.length ≤ n →
      inflateStored (deflateStored b ++ t) = some (b, t) from
    h b.length b t le_rfl
  intro n
  induction n with
  | zero =>
      intro b t hb
      have hsmall : b.length ≤ 65535 := by omega
      rw [deflateStored, dif_pos hsmall]
      unfold mkStoredBlock
      simp only [List.cons_append, List.append_assoc, if_true]
      rw [inflateStored_block 1 b t hsmall, if_pos rfl]
  | succ n ih =>
      intro b t hb
      by_cases hsmall : b.length ≤ 65535
      · rw [deflateStored, dif_pos hsmall]
        unfold mkStoredBlock
        simp only [List.cons_append, List.append_assoc, if_true]
        rw [inflateStored_block 1 b t hsmall, if_pos rfl]
      · rw [deflateStored, dif_neg hsmall]
        have hchunk : (b.take 65535).length ≤ 65535 := by
          simp [List.length_take]
        have hrec : inflateStored (deflateStored (b.drop 65535) ++ t) =
            some (b.drop 65535, t) := by
          apply ih
          simp only [List.length_drop]
          omega
        unfold mkStoredBlock
        simp only [List.cons_append, List.append_assoc, Bool.false_eq_true, if_false]
        rw [inflateStored_block 0 (b.take 65535) (deflateStored (b.drop 65535) ++ t) hchunk]
        rw [if_neg (by omega), if_pos rfl, hrec]
        simp [List.take_append_drop]

/-- C2: for every byte sequence, compressing it as gzip and then decoding
the resulting artifact with the content decoder yields exactly the
original uncompressed bytes. -/
theorem C2_gzip_roundtrip (b : List Nat) (hb : ∀ x ∈ b, x < 256) :
    gzipDecode (gzipCompress b) = Except.ok b := by
  clear hb
  have hcrc : crc32 b < 4294967296 := Nat.mod_lt _ (by norm_num)
  have hlen : b.length % 4294967296 < 4294967296 := Nat.mod_lt _ (by norm_num)
  unfold gzipCompress gzipHeader
  simp only [List.cons_append, List.nil_append, List.append_assoc]
  rw [gzipDecode]
  rw [if_pos ⟨rfl, rfl⟩, if_pos rfl, if_pos rfl]
  rw [inflateStored_deflateStored b (le4 (crc32 b) ++ le4 (b.length % 4294967296))]
  unfold le4
  simp only [List.cons_append, List.nil_append]
  rw [if_pos trivial, if_pos (by omega), if_pos (by omega)]

/-- Witness for C2: the round trip at the concrete byte sequence
`[72, 105]`. -/
theorem C2_gzip_roundtrip_witness :
    gzipDecode (gzipCompress [72, 105]) = Except.ok [72, 105] :=
  C2_gzip_roundtrip [72, 105] (by decide)

/-! ## Valid gzip data

A structural grammar for the artifacts the content decoder accepts:
used to state that everything *outside* the grammar is rejected with an
error. -/

/-- `InflatesTo s p t`: the byte stream `s` is a well-formed sequence of
stored DEFLATE blocks whose concatenated contents are `p`, followed by
the remaining bytes `t`. -/
inductive InflatesTo : List Nat → List Nat → List Nat → Prop where
  | last (chunk rem : List Nat) (h : chunk.length ≤ 65535) :
      InflatesTo
        (1 :: (le2 chunk.length ++ (le2 (65535 - chunk.length) ++ (chunk ++ rem))))
        chunk rem
  | more (chunk s p rem : List Nat) (h : chunk.length ≤ 65535)
      (ht : InflatesTo s p rem) :
      InflatesTo
        (0 :: (le2 chunk.length ++ (le2 (65535 - chunk.length) ++ (chunk ++ s))))
        (chunk ++ p) rem

/-- `ValidGzip a p`: the artifact `a` is valid gzip data for the
uncompressed payload `p` — the gzip header (any mtime/XFL/OS bytes),
a well-formed stored-block DEFLATE stream, and the matching CRC-32 and
size trailer with nothing after it. -/
def ValidGzip (a payload : List Nat) : Prop :=
  ∃ mt1 mt2 mt3 mt4 xfl os body,
    a = 31 :: 139 :: 8 :: 0 :: mt1 :: mt2 :: mt3 :: mt4 :: xfl :: os :: body ∧
    InflatesTo body payload
      (le4 (crc32 payload) ++ le4 (payload.length % 4294967296))

/-- A successful inflate leaves a remainder drawn from the input
stream. -/
theorem inflateStored_rest_subset :
    ∀ (s p t : List Nat), inflateStored s = some (p, t) → t ⊆ s := by
  suffices h : ∀ n (s p t : List Nat), s.length ≤ n →
      inflateStored s = some (p, t) → t ⊆ s from
    fun s p t => h s.length s p t le_rfl
  intro n
  induction n with
  | zero =>
      intro s p t hlen hinf
      cases s with
      | nil => simp [inflateStored] at hinf
      | cons a s => simp at hlen
  | succ n ih =>
      intro s p t hlen hinf
      rcases s with _ | ⟨bf, _ | ⟨l1, _ | ⟨l2, _ | ⟨n1, _ | ⟨n2, rest⟩⟩⟩⟩⟩
      · simp [inflateStored] at hinf
      · simp [inflateStored] at hinf
      · simp [inflateStored] at hinf
      · simp [inflateStored] at hinf
      · simp [inflateStored] at hinf
      rw [inflateStored] at hinf
      by_cases hcond : n1 + 256 * n2 = 65535 - (l1 + 256 * l2) ∧
          l1 + 256 * l2 ≤ rest.length
      · rw [if_pos hcond] at hinf
        by_cases hbf1 : bf = 1
        · rw [if_pos hbf1] at hinf
          simp only [Option.some.injEq, Prod.mk.injEq] at hinf
          obtain ⟨hp, ht⟩ := hinf
          intro x hx
          rw [← ht] at hx
          have := List.mem_of_mem_drop hx
          simp [this]
        · rw [if_neg hbf1] at hinf
          by_cases hbf0 : bf = 0
          · rw [if_pos hbf0] at hinf
            cases hrec : inflateStored (rest.drop (l1 + 256 * l2)) with
            | none => rw [hrec] at hinf; simp at hinf
            | some pt =>
                obtain ⟨p', t'⟩ := pt
                rw [hrec] at hinf
                simp only [Option.some.injEq, Prod.mk.injEq] at hinf
                obtain ⟨hp, ht⟩ := hinf
                have hsub : t' ⊆ rest.drop (l1 + 256 * l2) := by
                  apply ih
                  · simp only [List.length_drop]
                    simp only [List.length_cons] at hlen
                    omega
                  · exact hrec
                intro x hx
                rw [← ht] at hx
                have := List.mem_of_mem_drop (hsub hx)
                simp [this]
          · rw [if_neg hbf0] at hinf
            simp at hinf
      · rw [if_neg hcond] at hinf
        simp at hinf

/-- Completeness of the structural grammar: whatever `inflateStored`
accepts (over genuine bytes) is a well-formed stored-block stream. -/
theorem inflateStored_sound :
    ∀ (s p t : List Nat), (∀ x ∈ s, x < 256) →
      inflateStored s = some (p, t) → InflatesTo s p t := by
  suffices h : ∀ n (s p t : List Nat), s.length ≤ n → (∀ x ∈ s, x < 256) →
      inflateStored s = some (p, t) → InflatesTo s p t from
    fun s p t => h s.length s p t le_rfl
  intro n
  induction n with
  | zero =>
      intro s p t hlen hb hinf
      cases s with
      | nil => simp [inflateStored] at hinf
      | cons a s => simp at hlen
  | succ n ih =>
      intro s p t hlen hb hinf
      rcases s with _ | ⟨bf, _ | ⟨l1, _ | ⟨l2, _ | ⟨n1, _ | ⟨n2, rest⟩⟩⟩⟩⟩
      · simp [inflateStored] at hinf
      · simp [inflateStored] at hinf
      · simp [inflateStored] at hinf
      · simp [inflateStored] at hinf
      · simp [inflateStored] at hinf
      have hl1 : l1 < 256 := hb l1 (by simp)
      have hl2 : l2 < 256 := hb l2 (by simp)
      have hn1 : n1 < 256 := hb n1 (by simp)
      have hn2 : n2 < 256 := hb n2 (by simp)
      rw [inflateStored] at hinf
      by_cases hcond : n1 + 256 * n2 = 65535 - (l1 + 256 * l2) ∧
          l1 + 256 * l2 ≤ rest.length
      · obtain ⟨hcomp, hroom⟩ := hcond
        rw [if_pos ⟨hcomp, hroom⟩] at hinf
        have htake : (rest.take (l1 + 256 * l2)).length = l1 + 256 * l2 := by
          rw [List.length_take]
          omega
        by_cases hbf1 : bf = 1
        · rw [if_pos hbf1] at hinf
          simp only [Option.some.injEq, Prod.mk.injEq] at hinf
          obtain ⟨hp, ht⟩ := hinf
          subst hbf1
          rw [← hp, ← ht]
          have hform : (1 : Nat) :: l1 :: l2 :: n1 :: n2 :: rest =
              1 :: (le2 (rest.take (l1 + 256 * l2)).length ++
                (le2 (65535 - (rest.take (l1 + 256 * l2)).length) ++
                  ((rest.take (l1 + 256 * l2)) ++ rest.drop (l1 + 256 * l2)))) := by
            unfold le2
            rw [htake]
            have e1 : (l1 + 256 * l2) % 256 = l1 := by omega
            have e2 : (l1 + 256 * l2) / 256 % 256 = l2 := by omega
            have e3 : (65535 - (l1 + 256 * l2)) % 256 = n1 := by omega
            have e4 : (65535 - (l1 + 256 * l2)) / 256 % 256 = n2 := by omega
            simp [e1, e2, e3, e4, List.take_append_drop]
          rw [hform]
          exact InflatesTo.last _ _ (by rw [htake]; omega)
        · rw [if_neg hbf1] at hinf
          by_cases hbf0 : bf = 0
          · rw [if_pos hbf0] at hinf
            cases hrec : inflateStored (rest.drop (l1 + 256 * l2)) with
            | none => rw [hrec] at hinf; simp at hinf
            | some pt =>
                obtain ⟨p', t'⟩ := pt
                rw [hrec] at hinf
                simp only [Option.some.injEq, Prod.mk.injEq] at hinf
                obtain ⟨hp, ht⟩ := hinf
                have hih : InflatesTo (rest.drop (l1 + 256 * l2)) p' t' := by
                  apply ih
                  · simp only [List.length_drop]
                    simp only [List.length_cons] at hlen
                    omega
                  · intro x hx
                    exact hb x (by simp [List.mem_of_mem_drop hx])
                  · exact hrec
                subst hbf0
                rw [← hp, ← ht]
                have hform : (0 : Nat) :: l1 :: l2 :: n1 :: n2 :: rest =
                    0 :: (le2 (rest.take (l1 + 256 * l2)).length ++
                      (le2 (65535 - (rest.take (l1 + 256 * l2)).length) ++
                        ((rest.take (l1 + 256 * l2)) ++ rest.drop (l1 + 256 * l2)))) := by
                  unfold le2
                  rw [htake]
                  have e1 : (l1 + 256 * l2) % 256 = l1 := by omega
                  have e2 : (l1 + 256 * l2) / 256 % 256 = l2 := by omega
                  have e3 : (65535 - (l1 + 256 * l2)) % 256 = n1 := by omega
                  have e4 : (65535 - (l1 + 256 * l2)) / 256 % 256 = n2 := by omega
                  simp [e1, e2, e3, e4, List.take_append_drop]
                rw [hform]
                exact InflatesTo.more _ _ _ _ (by rw [htake]; omega) hih
          · rw [if_neg hbf0] at hinf
            simp at hinf
      · rw [if_neg hcond] at hinf
        simp at hinf

/-- A successful decode certifies the artifact as valid gzip data. -/
theorem gzipDecode_sound (a p : List Nat) (ha : ∀ x ∈ a, x < 256)
    (h : gzipDecode a = Except.ok p) : ValidGzip a p := by
  rcases a with _ | ⟨m1, _ | ⟨m2, _ | ⟨cm, _ | ⟨flg, _ | ⟨mt1, _ | ⟨mt2, _ |
    ⟨mt3, _ | ⟨mt4, _ | ⟨xfl, _ | ⟨os, body⟩⟩⟩⟩⟩⟩⟩⟩⟩⟩
  · simp [gzipDecode] at h
  · simp [gzipDecode] at h
  · simp [gzipDecode] at h
  · simp [gzipDecode] at h
  · simp [gzipDecode] at h
  · simp [gzipDecode] at h
  · simp [gzipDecode] at h
  · simp [gzipDecode] at h
  · simp [gzipDecode] at h
  · simp [gzipDecode] at h
  rw [gzipDecode] at h
  by_cases hmagic : m1 = 31 ∧ m2 = 139
  · rw [if_pos hmagic] at h
    by_cases hcm : cm = 8
    · rw [if_pos hcm] at h
      by_cases hflg : flg = 0
      · rw [if_pos hflg] at h
        cases hinf : inflateStored body with
        | none => rw [hinf] at h; simp at h
        | some pt =>
            obtain ⟨payload, trailer⟩ := pt
            rw [hinf] at h
            have htr : ∀ x ∈ trailer, x < 256 := by
              intro x hx
              have hsub := inflateStored_rest_subset body payload trailer hinf
              exact ha x (by simp [hsub hx])
            rcases trailer with _ | ⟨c1, _ | ⟨c2, _ | ⟨c3, _ | ⟨c4, _ | ⟨s1, _ |
              ⟨s2, _ | ⟨s3, _ | ⟨s4, rest⟩⟩⟩⟩⟩⟩⟩⟩
            · simp at h
            · simp at h
            · simp at h
            · simp at h
            · simp at h
            · simp at h
            · simp at h
            · simp at h
            dsimp only [] at h
            by_cases hrest : rest = []
            · rw [if_pos hrest] at h
              by_cases hcrc : c1 + 256 * c2 + 65536 * c3 + 16777216 * c4 = crc32 payload
              · rw [if_pos hcrc] at h
                by_cases hsize : s1 + 256 * s2 + 65536 * s3 + 16777216 * s4 =
                    payload.length % 4294967296
                · rw [if_pos hsize] at h
                  simp only [Except.ok.injEq] at h
                  subst h
                  obtain ⟨h1, h2⟩ := hmagic
                  subst h1; subst h2; subst hcm; subst hflg; subst hrest
                  refine ⟨mt1, mt2, mt3, mt4, xfl, os, body, rfl, ?_⟩
                  have hc1 : c1 < 256 := htr c1 (by simp)
                  have hc2 : c2 < 256 := htr c2 (by simp)
                  have hc3 : c3 < 256 := htr c3 (by simp)
                  have hc4 : c4 < 256 := htr c4 (by simp)
                  have hs1 : s1 < 256 := htr s1 (by simp)
                  have hs2 : s2 < 256 := htr s2 (by simp)
                  have hs3 : s3 < 256 := htr s3 (by simp)
                  have hs4 : s4 < 256 := htr s4 (by simp)
                  have hcb : crc32 payload < 4294967296 := Nat.mod_lt _ (by norm_num)
                  have hsb : payload.length % 4294967296 < 4294967296 :=
                    Nat.mod_lt _ (by norm_num)
                  have htrail : (c1 : Nat) :: c2 :: c3 :: c4 :: s1 :: s2 :: s3 :: s4 :: [] =
                      le4 (crc32 payload) ++ le4 (payload.length % 4294967296) := by
                    unfold le4
                    have e1 : crc32 payload % 256 = c1 := by omega
                    have e2 : crc32 payload / 256 % 256 = c2 := by omega
                    have e3 : crc32 payload / 65536 % 256 = c3 := by omega
                    have e4 : crc32 payload / 16777216 % 256 = c4 := by omega
                    have f1 : payload.length % 4294967296 % 256 = s1 := by omega
                    have f2 : payload.length % 4294967296 / 256 % 256 = s2 := by omega
                    have f3 : payload.length % 4294967296 / 65536 % 256 = s3 := by omega
                    have f4 : payload.length % 4294967296 / 16777216 % 256 = s4 := by omega
                    simp [e1, e2, e3, e4, f1, f2, f3, f4]
                  rw [← htrail]
                  apply inflateStored_sound
                  · intro x hx
                    exact ha x (by simp [hx])
                  · exact hinf
                · rw [if_neg hsize] at h
                  simp at h
              · rw [if_neg hcrc] at h
                simp at h
            · rw [if_neg hrest] at h
              simp at h
      · rw [if_neg hflg] at h
        simp at h
    · rw [if_neg hcm] at h
      simp at h
  · rw [if_neg hmagic] at h
    simp at h

/-- C3: every local artifact that is not valid gzip data makes the
content decoder fail with a decoding error rather than return any byte
buffer, and the error propagates through the notebook cell to the caller
unchanged. -/
theorem C3_invalid_gzip_rejected (a : List Nat) (ha : ∀ x ∈ a, x < 256)
    (hv : ∀ p, ¬ ValidGzip a p) :
    ∃ e, gzipDecode a = Except.error e ∧ scrapeCell a = Except.error e := by
  cases h : gzipDecode a with
  | ok p => exact absurd (gzipDecode_sound a p ha h) (hv p)
  | error e =>
      refine ⟨e, rfl, ?_⟩
      simp [scrapeCell, h, Except.map]

/-- Witness for C3: the plain-HTML artifact `"<html"` (bytes
`[60, 104, 116, 109, 108]`) is not gzip data and is rejected, the error
propagating through the cell. -/
theorem C3_invalid_gzip_rejected_witness :
    ∃ e, gzipDecode [60, 104, 116, 109, 108] = Except.error e ∧
      scrapeCell [60, 104, 116, 109, 108] = Except.error e :=
  C3_invalid_gzip_rejected [60, 104, 116, 109, 108] (by decide)
    (fun p hp => by
      obtain ⟨mt1, mt2, mt3, mt4, xfl, os, body, heq, _⟩ := hp
      simp at heq)

/-! ## The request issuer (`scraping.ipynb`)

Modelled from the spec: the notebook issues
`curl -vH @headers.txt --output outfile.gz <url>` — a single HTTP GET
with the headers of the static file `headers.txt` attached verbatim.
Neither `curl` nor `headers.txt` is part of the repository, so the
issuer is modelled from the spec's contract: exactly one GET, headers
unmodified, raw body saved to the named artifact, transfer size and
status code reported. -/

/-- One outgoing HTTP request: a method, a target URL, and the header
lines attached to it. -/
structure HttpRequest where
  method : String
  url : String
  headers : List String
  deriving DecidableEq, Repr

/-- The response the remote server returns for the single request. -/
structure HttpResponse where
  status : Nat
  body : List Nat
  deriving DecidableEq, Repr

/-- What one `curl` invocation leaves behind: the requests it sent, the
bytes written to the output artifact, and the diagnostics it printed. -/
structure CurlResult where
  requests : List HttpRequest
  savedArtifact : List Nat
  reportedSize : Nat
  reportedStatus : Nat
  deriving DecidableEq, Repr

/-- Modelled from the spec: `curl -vH @headers.txt --output outfile.gz url`.
The header lines are loaded verbatim from the static file and attached
unmodified to one GET request; the raw response body is written to the
output artifact; the transfer size and status code are reported. -/
def curlFetch (headerLines : List String) (url : String)
    (resp : HttpResponse) : CurlResult :=
  { requests := [{ method := "GET", url := url, headers := headerLines }],
    savedArtifact := resp.body,
    reportedSize := resp.body.length,
    reportedStatus := resp.status }

/-- The header file and URL of the notebook's `curl` invocation (headers
as captured in the cell's verbose output). -/
def bigtenURL : String :=
  "https://bigten.org/calendar.aspx?path=football&year=2019"

/-- Modelled from the spec: `headers.txt`, "a plain-text file of header
name/value pairs, one per line, supplied verbatim to the request"
(abbreviated to three of the lines shown in the cell's output). -/
def headersFile : List String :=
  ["Host: bigten.org",
   "User-Agent: Mozilla/5.0 (X11; Linux x86_64) AppleWebKit/537.36 (KHTML, like Gecko) Chrome/86.0.4240.111 Safari/537.36",
   "Accept-Language: en-US,en;q=0.9"]

/-- C4: every header name/value pair in the fixed header file appears
unmodified among the headers of the single outgoing HTTP GET request the
issuer sends. -/
theorem C4_headers_attached_verbatim (headerLines : List String) (url : String)
    (resp : HttpResponse) (h : String) (hmem : h ∈ headerLines) :
    ∃ req, (curlFetch headerLines url resp).requests = [req] ∧
      req.method = "GET" ∧ h ∈ req.headers := by
  refine ⟨{ method := "GET", url := url, headers := headerLines }, rfl, rfl, hmem⟩

/-- Witness for C4: the `User-Agent` line of the notebook's header file
reaches the single GET request unmodified. -/
theorem C4_headers_attached_verbatim_witness :
    ∃ req, (curlFetch headersFile bigtenURL { status := 200, body := [] }).requests =
        [req] ∧ req.method = "GET" ∧
      ("User-Agent: Mozilla/5.0 (X11; Linux x86_64) AppleWebKit/537.36 (KHTML, like Gecko) Chrome/86.0.4240.111 Safari/537.36" : String) ∈
        req.headers :=
  C4_headers_attached_verbatim headersFile bigtenURL { status := 200, body := [] }
    "User-Agent: Mozilla/5.0 (X11; Linux x86_64) AppleWebKit/537.36 (KHTML, like Gecko) Chrome/86.0.4240.111 Safari/537.36"
    (by simp [headersFile])

/-- C5: given a target URL and a static header mapping, the issuer
performs exactly one HTTP GET (no retries, no additional requests),
saves the raw response body to the named local artifact, and reports the
transfer size and status code. -/
theorem C5_single_get_saved_and_reported (headerLines : List String)
    (url : String) (resp : HttpResponse) :
    (curlFetch headerLines url resp).requests =
      [{ method := "GET", url := url, headers := headerLines }] ∧
    (curlFetch headerLines url resp).requests.length = 1 ∧
    (curlFetch headerLines url resp).savedArtifact = resp.body ∧
    (curlFetch headerLines url resp).reportedSize = resp.body.length ∧
    (curlFetch headerLines url resp).reportedStatus = resp.status :=
  ⟨rfl, rfl, rfl, rfl, rfl⟩

end SI330
